import Mathlib

/- Shallow embedding of resources/lib/database_handler.py from
Library-Integration-Tool-for-Kodi.  The three SQLite tables (Content,
Synced, Blocked) are modelled as lists of rows inside a DBState record,
and each method of DB_Handler becomes a Lean function on DBState.
SQLite specifics that the queries rely on are modelled explicitly:
the LIKE operator is case-insensitive on ASCII letters, substr is
1-indexed and character based, ORDER BY uses the BINARY collation
(codepoint-wise lexicographic order on the text), NULL sorts before
all strings, and DISTINCT keeps one copy of each value. -/

/- ASCII-only lower casing, as used by the SQLite LIKE operator. -/
def asciiLower (c : Char) : Char :=
  if 65 ≤ c.toNat ∧ c.toNat ≤ 90 then Char.ofNat (c.toNat + 32) else c

/- Lexicographic order on codepoints: the BINARY collation of SQLite
restricted to valid UTF-8 text (byte order and codepoint order agree). -/
def charListLe : List Char → List Char → Bool
  | [], _ => true
  | _ :: _, [] => false
  | a :: as, b :: bs =>
    if a.toNat < b.toNat then true
    else if b.toNat < a.toNat then false
    else charListLe as bs

def strLe (a b : String) : Bool := charListLe a.data b.data

def strLtB (a b : String) : Bool := strLe a b && !(a == b)

/- The condition of the CASE expression in the listing queries:
Title LIKE 'the %'.  SQLite LIKE compares ASCII letters case
insensitively, so any casing of the four leading characters matches. -/
def likeThe (s : String) : Bool :=
  match s.data with
  | t :: h :: e :: sp :: _ =>
    asciiLower t == 't' && asciiLower h == 'h' && asciiLower e == 'e' && sp == ' '
  | _ => false

/- The CASE expression itself: substr(Title,5) when the LIKE matches,
else the title; substr(s,5) drops the first four characters. -/
def sortKey (s : String) : String :=
  if likeThe s then String.mk (s.data.drop 4) else s

/- NULL sorts before every string under the default ASC order. -/
def optLe : Option String → Option String → Bool
  | none, _ => true
  | some _, none => false
  | some a, some b => strLe a b

/- Insertion sort, used as the deterministic model of ORDER BY. -/
def insertLe {α : Type} (le : α → α → Bool) (a : α) : List α → List α
  | [] => [a]
  | b :: bs => if le a b then a :: b :: bs else b :: insertLe le a bs

def sortBy {α : Type} (le : α → α → Bool) (l : List α) : List α :=
  l.foldr (insertLe le) []

/- SELECT DISTINCT keeps the first copy of each value. -/
def dedupFirstAux (seen : List (Option String)) :
    List (Option String) → List (Option String)
  | [] => []
  | a :: as =>
    if a ∈ seen then dedupFirstAux seen as
    else a :: dedupFirstAux (a :: seen) as

def dedupFirst (l : List (Option String)) : List (Option String) :=
  dedupFirstAux [] l

/- Rows of the three tables, with the schema of __init__.  Show_Title is
the one column the handler itself stores as NULL, hence an Option. -/
structure ContentRow where
  directory : String
  title : String
  mediatype : String
  status : String
  show_title : Option String

structure SyncedRow where
  directory : String
  label : String
  type : String

structure BlockedRow where
  value : String
  type : String

structure DBState where
  content : List ContentRow
  synced : List SyncedRow
  blocked : List BlockedRow

/- Errors the Python code can raise while mapping rows: the explicit
ValueError of content_item_from_db, and the TypeError raised by
subscripting None when fetchone found no row. -/
inductive DBErr where
  | typeError
  | valueError
  deriving DecidableEq

/- The ContentItem subclasses constructed by content_item_from_db:
MovieItem(path, title, mediatype) and
EpisodeItem(path, title, mediatype, show_title). -/
inductive ContentItem where
  | movie (path title mediatype : String)
  | episode (path title mediatype : String) (show_title : Option String)
  deriving DecidableEq

structure SyncedDict where
  dir : String
  label : String
  type : String

structure BlockedDict where
  value : String
  type : String

/- content_item_from_db(item): item[2] decides the class; item is None
when the caller passes the result of fetchone on an empty result set,
and item[2] then raises a TypeError. -/
def content_item_from_db : Option ContentRow → Except DBErr ContentItem
  | none => Except.error DBErr.typeError
  | some r =>
    if r.mediatype = "movie" then
      Except.ok (ContentItem.movie r.directory r.title "movie")
    else if r.mediatype = "tvshow" then
      Except.ok (ContentItem.episode r.directory r.title "tvshow" r.show_title)
    else Except.error DBErr.valueError

/- The list comprehension over fetched rows: stops at the first raising
row, as the Python comprehension does. -/
def mapRows : List ContentRow → Except DBErr (List ContentItem)
  | [] => Except.ok []
  | r :: rs =>
    match content_item_from_db (some r) with
    | Except.error e => Except.error e
    | Except.ok item =>
      match mapRows rs with
      | Except.error e => Except.error e
      | Except.ok items => Except.ok (item :: items)

def contentKeyLe (a b : ContentRow) : Bool := strLe (sortKey a.title) (sortKey b.title)

/- get_content_items: the mediatype parameter defaults to None and the
code tests it with: if mediatype: — truthiness, so None and the empty
string both take the unfiltered branch. -/
def selectContent (st : DBState) (status : String) (mediatype : Option String) :
    List ContentRow :=
  match mediatype with
  | some m =>
    if m ≠ "" then
      st.content.filter (fun r => decide (r.status = status ∧ r.mediatype = m))
    else st.content.filter (fun r => decide (r.status = status))
  | none => st.content.filter (fun r => decide (r.status = status))

def get_content_items (st : DBState) (status : String) (mediatype : Option String) :
    Except DBErr (List ContentItem) :=
  mapRows (sortBy contentKeyLe (selectContent st status mediatype))

/- get_all_shows: SELECT DISTINCT Show_Title FROM Content WHERE Status=?
ordered by the article-stripping key; the Python list comprehension then
drops the None entries. -/
def get_all_shows (st : DBState) (status : String) : List String :=
  (sortBy (fun a b => optLe (Option.map sortKey a) (Option.map sortKey b))
    (dedupFirst
      ((st.content.filter (fun r => decide (r.status = status))).map
        (fun r => r.show_title)))).filterMap id

def get_show_episodes (st : DBState) (status show_title : String) :
    Except DBErr (List ContentItem) :=
  mapRows (sortBy contentKeyLe
    (st.content.filter
      (fun r => decide (r.status = status ∧ r.show_title = some show_title))))

/- load_item: fetchone on SELECT * WHERE Directory=?, then the row (or
None) is passed straight to content_item_from_db. -/
def load_item (st : DBState) (path : String) : Except DBErr ContentItem :=
  content_item_from_db
    ((st.content.filter (fun r => decide (r.directory = path))).head?)

/- path_exists: the status parameter defaults to None and is tested for
truthiness, so the empty string also takes the unfiltered branch. -/
def path_exists (st : DBState) (path : String) (status : Option String) : Bool :=
  match status with
  | some s =>
    if s ≠ "" then st.content.any (fun r => decide (r.directory = path ∧ r.status = s))
    else st.content.any (fun r => decide (r.directory = path))
  | none => st.content.any (fun r => decide (r.directory = path))

def hasDir (st : DBState) (path : String) : Bool :=
  st.content.any (fun r => decide (r.directory = path))

/- INSERT OR IGNORE on Content: Directory is the primary key, so the
insert is dropped when a row with the same directory exists. -/
def insertOrIgnoreContent (st : DBState) (row : ContentRow) : DBState :=
  if hasDir st row.directory then st
  else { st with content := st.content ++ [row] }

/- add_content_item: movie rows get Show_Title NULL, tvshow rows get the
given show_title, any other mediatype hits neither branch and only the
commit runs. -/
def add_content_item (st : DBState) (path title mediatype : String)
    (show_title : Option String) : DBState :=
  if mediatype = "movie" then
    insertOrIgnoreContent st ⟨path, title, mediatype, "staged", none⟩
  else if mediatype = "tvshow" then
    insertOrIgnoreContent st ⟨path, title, mediatype, "staged", show_title⟩
  else st

def update_content_status (st : DBState) (path status : String) : DBState :=
  { st with content :=
      st.content.map (fun r => if r.directory = path then { r with status := status } else r) }

def update_content_title (st : DBState) (path title : String) : DBState :=
  { st with content :=
      st.content.map (fun r => if r.directory = path then { r with title := title } else r) }

def remove_content_item (st : DBState) (path : String) : DBState :=
  { st with content := st.content.filter (fun r => !decide (r.directory = path)) }

def remove_all_content_items (st : DBState) (status mediatype : String) : DBState :=
  { st with content :=
      st.content.filter (fun r => !decide (r.status = status ∧ r.mediatype = mediatype)) }

def remove_all_show_episodes (st : DBState) (status show_title : String) : DBState :=
  { st with content :=
      st.content.filter (fun r => !decide (r.status = status ∧ r.show_title = some show_title)) }

def synced_item_dict (r : SyncedRow) : SyncedDict := ⟨r.directory, r.label, r.type⟩

def get_synced_dirs (st : DBState) : List SyncedDict :=
  (sortBy (fun a b => strLe (sortKey a.label) (sortKey b.label)) st.synced).map
    synced_item_dict

/- add_synced_dir uses INSERT OR REPLACE keyed on Directory. -/
def add_synced_dir (st : DBState) (label path mediatype : String) : DBState :=
  { st with synced :=
      st.synced.filter (fun r => !decide (r.directory = path)) ++ [⟨path, label, mediatype⟩] }

def remove_synced_dir (st : DBState) (path : String) : DBState :=
  { st with synced := st.synced.filter (fun r => !decide (r.directory = path)) }

def remove_all_synced_dirs (st : DBState) : DBState :=
  { st with synced := [] }

def blocked_item_dict (r : BlockedRow) : BlockedDict := ⟨r.value, r.type⟩

def blockedLe (a b : BlockedRow) : Bool :=
  strLtB a.value b.value || (a.value == b.value && strLe a.type b.type)

def get_blocked_items (st : DBState) : List BlockedDict :=
  (sortBy blockedLe st.blocked).map blocked_item_dict

def check_blocked (st : DBState) (value mediatype : String) : Bool :=
  st.blocked.any (fun r => decide (r.value = value ∧ r.type = mediatype))

def add_blocked_item (st : DBState) (value mediatype : String) : DBState :=
  if check_blocked st value mediatype then st
  else { st with blocked := st.blocked ++ [⟨value, mediatype⟩] }

def remove_blocked (st : DBState) (value mediatype : String) : DBState :=
  { st with blocked :=
      st.blocked.filter (fun r => !decide (r.value = value ∧ r.type = mediatype)) }

/- Modelled from the claim text, for comparison with sortKey: the sort
key is the substring after the leading "The " (capital T, trailing
space) when the string starts with that exact prefix, else the string
itself. -/
def claimSortKey (s : String) : String :=
  match s.data with
  | 'T' :: 'h' :: 'e' :: ' ' :: rest => String.mk rest
  | _ => s

def claimContentKeyLe (a b : ContentRow) : Bool :=
  strLe (claimSortKey a.title) (claimSortKey b.title)

/- get_content_items as the claim describes its ordering, for
comparison with the embedded code. -/
def get_content_items_claim (st : DBState) (status : String)
    (mediatype : Option String) : Except DBErr (List ContentItem) :=
  mapRows (sortBy claimContentKeyLe (selectContent st status mediatype))

/- Modelled from the claim text of C7, for comparison with
get_all_shows: distinct non-null show titles of the tvshow entries with
the given status. -/
def get_all_shows_claim (st : DBState) (status : String) : List String :=
  (sortBy (fun a b => optLe (Option.map sortKey a) (Option.map sortKey b))
    (dedupFirst
      ((st.content.filter
          (fun r => decide (r.status = status ∧ r.mediatype = "tvshow"))).map
        (fun r => r.show_title)))).filterMap id

def itemTitle : ContentItem → String
  | ContentItem.movie _ t _ => t
  | ContentItem.episode _ t _ _ => t

def getTitles : Except DBErr (List ContentItem) → Option (List String)
  | Except.ok l => some (l.map itemTitle)
  | Except.error _ => none

def countBlocked (bl : List BlockedRow) (v k : String) : Nat :=
  (bl.filter (fun r => decide (r.value = v ∧ r.type = k))).length

def noDupBlocked (bl : List BlockedRow) : Prop :=
  ∀ v k, countBlocked bl v k ≤ 1

def emptyDB : DBState := ⟨[], [], []⟩

def c1State : DBState :=
  ⟨[⟨"/office", "The Office", "movie", "staged", none⟩,
    ⟨"/archer", "Archer", "movie", "staged", none⟩,
    ⟨"/wire", "The Wire", "movie", "staged", none⟩], [], []⟩

def c1LowerState : DBState :=
  ⟨[⟨"/a", "the Alpha", "movie", "staged", none⟩,
    ⟨"/b", "Beta", "movie", "staged", none⟩], [], []⟩

def c2State : DBState :=
  ⟨[⟨"/other", "Other", "movie", "staged", none⟩], [], []⟩

def c7State : DBState :=
  ⟨[⟨"/m", "T", "movie", "staged", some "X"⟩], [], []⟩

theorem perm_insertLe {α : Type} (le : α → α → Bool) (a : α) (l : List α) :
    (insertLe le a l).Perm (a :: l) := by
  induction l with
  | nil => exact List.Perm.refl _
  | cons b bs ih =>
    by_cases h : le a b = true
    · simp [insertLe, h]
    · simp only [insertLe, h, if_false]
      exact (ih.cons b).trans (List.Perm.swap a b bs)

theorem perm_sortBy {α : Type} (le : α → α → Bool) (l : List α) :
    (sortBy le l).Perm l := by
  induction l with
  | nil => exact List.Perm.refl _
  | cons a as ih =>
    exact (perm_insertLe le a (sortBy le as)).trans (ih.cons a)

theorem mem_sortBy {α : Type} (le : α → α → Bool) (l : List α) (x : α) :
    x ∈ sortBy le l ↔ x ∈ l :=
  (perm_sortBy le l).mem_iff

theorem nodup_sortBy {α : Type} (le : α → α → Bool) (l : List α) (h : l.Nodup) :
    (sortBy le l).Nodup :=
  (perm_sortBy le l).nodup_iff.mpr h

theorem mem_dedupFirstAux (x : Option String) (seen l : List (Option String)) :
    x ∈ dedupFirstAux seen l ↔ x ∈ l ∧ x ∉ seen := by
  induction l generalizing seen with
  | nil => simp [dedupFirstAux]
  | cons a as ih =>
    by_cases h : a ∈ seen
    · simp only [dedupFirstAux, if_pos h, ih, List.mem_cons]
      constructor
      · rintro ⟨hx, hs⟩
        exact ⟨Or.inr hx, hs⟩
      · rintro ⟨rfl | hx, hs⟩
        · exact absurd h hs
        · exact ⟨hx, hs⟩
    · simp only [dedupFirstAux, if_neg h, List.mem_cons, ih, not_or]
      constructor
      · rintro (rfl | ⟨hx, hne, hs⟩)
        · exact ⟨Or.inl rfl, h⟩
        · exact ⟨Or.inr hx, hs⟩
      · rintro ⟨hxa | hx, hs⟩
        · exact Or.inl hxa
        · by_cases hxa : x = a
          · exact Or.inl hxa
          · exact Or.inr ⟨hx, hxa, hs⟩

theorem nodup_dedupFirstAux (seen l : List (Option String)) :
    (dedupFirstAux seen l).Nodup := by
  induction l generalizing seen with
  | nil => simp [dedupFirstAux]
  | cons a as ih =>
    by_cases h : a ∈ seen
    · simpa only [dedupFirstAux, if_pos h] using ih seen
    · simp only [dedupFirstAux, if_neg h]
      refine List.nodup_cons.mpr ⟨?_, ih (a :: seen)⟩
      intro hmem
      exact ((mem_dedupFirstAux a (a :: seen) as).mp hmem).2 (List.mem_cons_self a seen)

theorem mem_dedupFirst (x : Option String) (l : List (Option String)) :
    x ∈ dedupFirst l ↔ x ∈ l := by
  simp [dedupFirst, mem_dedupFirstAux]

theorem nodup_dedupFirst (l : List (Option String)) : (dedupFirst l).Nodup :=
  nodup_dedupFirstAux [] l

theorem nodup_filterMap_id (l : List (Option String)) (h : l.Nodup) :
    (l.filterMap id).Nodup := by
  induction l with
  | nil => simp
  | cons a as ih =>
    rcases List.nodup_cons.mp h with ⟨ha, has⟩
    cases a with
    | none => simpa using ih has
    | some x =>
      simp only [List.filterMap_cons, id]
      refine List.nodup_cons.mpr ⟨?_, ih has⟩
      intro hmem
      rcases List.mem_filterMap.mp hmem with ⟨o, ho, hox⟩
      simp only [id] at hox
      subst hox
      exact ha ho

theorem content_item_from_db_ok_movie (r : ContentRow) (h : r.mediatype = "movie") :
    content_item_from_db (some r) =
      Except.ok (ContentItem.movie r.directory r.title "movie") := by
  simp [content_item_from_db, h]

theorem content_item_from_db_ok_tvshow (r : ContentRow) (h : r.mediatype = "tvshow") :
    content_item_from_db (some r) =
      Except.ok (ContentItem.episode r.directory r.title "tvshow" r.show_title) := by
  simp [content_item_from_db, h]

theorem content_item_from_db_bad (r : ContentRow)
    (h1 : r.mediatype ≠ "movie") (h2 : r.mediatype ≠ "tvshow") :
    content_item_from_db (some r) = Except.error DBErr.valueError := by
  simp [content_item_from_db, h1, h2]

theorem mapRows_ok_of_good (l : List ContentRow)
    (h : ∀ r ∈ l, r.mediatype = "movie" ∨ r.mediatype = "tvshow") :
    ∃ items, mapRows l = Except.ok items := by
  induction l with
  | nil => exact ⟨[], rfl⟩
  | cons r rs ih =>
    rcases ih (fun x hx => h x (List.mem_cons_of_mem r hx)) with ⟨items, hitems⟩
    rcases h r (List.mem_cons_self r rs) with hm | hm
    · exact ⟨ContentItem.movie r.directory r.title "movie" :: items,
        by simp [mapRows, content_item_from_db_ok_movie r hm, hitems]⟩
    · exact ⟨ContentItem.episode r.directory r.title "tvshow" r.show_title :: items,
        by simp [mapRows, content_item_from_db_ok_tvshow r hm, hitems]⟩

theorem mapRows_error_of_bad (l : List ContentRow) (r : ContentRow) (hr : r ∈ l)
    (h1 : r.mediatype ≠ "movie") (h2 : r.mediatype ≠ "tvshow") :
    ∃ e, mapRows l = Except.error e := by
  induction l with
  | nil => exact absurd hr (List.not_mem_nil r)
  | cons a as ih =>
    rcases List.mem_cons.mp hr with rfl | hmem
    · exact ⟨DBErr.valueError, by simp [mapRows, content_item_from_db_bad r h1 h2]⟩
    · rcases ih hmem with ⟨e, he⟩
      cases hc : content_item_from_db (some a) with
      | error e2 => exact ⟨e2, by simp [mapRows, hc]⟩
      | ok item => exact ⟨e, by simp [mapRows, hc, he]⟩

theorem mapRows_error_iff (l : List ContentRow) :
    (∃ e, mapRows l = Except.error e) ↔
      ∃ r ∈ l, r.mediatype ≠ "movie" ∧ r.mediatype ≠ "tvshow" := by
  constructor
  · intro herr
    by_contra hno
    push_neg at hno
    have hgood : ∀ r ∈ l, r.mediatype = "movie" ∨ r.mediatype = "tvshow" := by
      intro r hr
      by_cases hm : r.mediatype = "movie"
      · exact Or.inl hm
      · exact Or.inr (hno r hr hm)
    rcases mapRows_ok_of_good l hgood with ⟨items, hok⟩
    rcases herr with ⟨e, he⟩
    rw [hok] at he
    exact Except.noConfusion he
  · rintro ⟨r, hr, h1, h2⟩
    exact mapRows_error_of_bad l r hr h1 h2

theorem map_update_id (l : List ContentRow) (p : String) (f : ContentRow → ContentRow)
    (h : ∀ r ∈ l, r.directory ≠ p) :
    l.map (fun r => if r.directory = p then f r else r) = l := by
  induction l with
  | nil => rfl
  | cons a as ih =>
    rw [List.map_cons, if_neg (h a (List.mem_cons_self a as)),
      ih (fun r hr => h r (List.mem_cons_of_mem a hr))]

theorem countBlocked_append (bl : List BlockedRow) (row : BlockedRow) (v k : String) :
    countBlocked (bl ++ [row]) v k =
      countBlocked bl v k + (if row.value = v ∧ row.type = k then 1 else 0) := by
  simp only [countBlocked, List.filter_append]
  by_cases h : row.value = v ∧ row.type = k
  · simp [h]
  · simp [h]

theorem check_blocked_true_iff (st : DBState) (v k : String) :
    check_blocked st v k = true ↔ ∃ r ∈ st.blocked, r.value = v ∧ r.type = k := by
  simp [check_blocked, List.any_eq_true]

theorem countBlocked_eq_zero (st : DBState) (v k : String)
    (h : check_blocked st v k = false) : countBlocked st.blocked v k = 0 := by
  simp only [countBlocked, List.length_eq_zero, List.filter_eq_nil_iff]
  intro r hr
  intro hc
  rw [decide_eq_true_eq] at hc
  have : check_blocked st v k = true := (check_blocked_true_iff st v k).mpr ⟨r, hr, hc⟩
  rw [h] at this
  exact Bool.noConfusion this

theorem countBlocked_pos (st : DBState) (v k : String)
    (h : check_blocked st v k = true) : 1 ≤ countBlocked st.blocked v k := by
  rcases (check_blocked_true_iff st v k).mp h with ⟨r, hr, hc⟩
  have : r ∈ st.blocked.filter (fun r => decide (r.value = v ∧ r.type = k)) :=
    List.mem_filter.mpr ⟨hr, by simpa using hc⟩
  have hne : st.blocked.filter (fun r => decide (r.value = v ∧ r.type = k)) ≠ [] := by
    intro hnil
    rw [hnil] at this
    exact List.not_mem_nil r this
  exact Nat.one_le_iff_ne_zero.mpr
    (fun h0 => hne (List.length_eq_zero.mp h0))

/-- Claim C2 states that load_item on an absent path returns an explicit
not-found result without raising.  The code instead passes the None from
fetchone straight into content_item_from_db, where item[2] raises a
TypeError; at a state holding only the row /other, load_item of /absent
evaluates to that error. -/
theorem C2_load_item_absent_raises :
    load_item c2State "/absent" = Except.error DBErr.typeError := rfl

/-- Claim C3: add_content_item is idempotent by path.  When a row with
the given directory already exists, the call leaves the whole state
unchanged (INSERT OR IGNORE on the Directory primary key); and after a
first successful insert, a second call with the same path changes
nothing. -/
theorem C3_add_content_item_idempotent :
    (∀ (st : DBState) (p t2 m2 : String) (s2 : Option String),
        hasDir st p = true → add_content_item st p t2 m2 s2 = st) ∧
    (∀ (st : DBState) (p t m t2 m2 : String) (s s2 : Option String),
        m = "movie" ∨ m = "tvshow" →
        add_content_item (add_content_item st p t m s) p t2 m2 s2 =
          add_content_item st p t m s) := by
  have H1 : ∀ (st : DBState) (p t2 m2 : String) (s2 : Option String),
      hasDir st p = true → add_content_item st p t2 m2 s2 = st := by
    intro st p t2 m2 s2 hdir
    by_cases h1 : m2 = "movie"
    · simp [add_content_item, h1, insertOrIgnoreContent, hdir]
    · by_cases h2 : m2 = "tvshow"
      · simp [add_content_item, h1, h2, insertOrIgnoreContent, hdir]
      · simp [add_content_item, h1, h2]
  refine ⟨H1, ?_⟩
  intro st p t m t2 m2 s s2 hm
  apply H1
  by_cases hd : hasDir st p = true
  · rw [H1 st p t m s hd]
    exact hd
  · have hd' : hasDir st p = false := by
      cases hfd : hasDir st p
      · rfl
      · exact absurd hfd hd
    simp only [hasDir] at hd' ⊢
    rcases hm with rfl | rfl
    · simp [add_content_item, insertOrIgnoreContent, hasDir, hd', List.any_append]
    · simp [add_content_item, insertOrIgnoreContent, hasDir, hd', List.any_append]

/-- Witness for C3 at a concrete state: a second insert at the same path
leaves the state of the first insert unchanged. -/
theorem C3_add_content_item_idempotent_witness :
    add_content_item (add_content_item emptyDB "/p" "A" "movie" none) "/p" "B" "movie" none =
      add_content_item emptyDB "/p" "A" "movie" none :=
  C3_add_content_item_idempotent.2 emptyDB "/p" "A" "movie" "B" "movie" none none
    (Or.inl rfl)

/-- Claim C4: for a path not yet present, add_content_item with kind
movie followed by load_item returns the movie entry with that path and
title, and the stored row has status staged and a null show title,
whatever show_title argument was passed. -/
theorem C4_add_movie_then_load :
    ∀ (st : DBState) (p t : String) (sh : Option String),
      hasDir st p = false →
      load_item (add_content_item st p t "movie" sh) p =
          Except.ok (ContentItem.movie p t "movie") ∧
        (add_content_item st p t "movie" sh).content =
          st.content ++ [⟨p, t, "movie", "staged", none⟩] := by
  intro st p t sh hd
  have hcontent : (add_content_item st p t "movie" sh).content =
      st.content ++ [⟨p, t, "movie", "staged", none⟩] := by
    simp [add_content_item, insertOrIgnoreContent, hd]
  refine ⟨?_, hcontent⟩
  have hfilter : st.content.filter (fun r => decide (r.directory = p)) = [] := by
    rw [List.filter_eq_nil_iff]
    intro r hr hdec
    rw [decide_eq_true_eq] at hdec
    have hany : st.content.any (fun r => decide (r.directory = p)) = true :=
      List.any_eq_true.mpr ⟨r, hr, by simpa using hdec⟩
    simp only [hasDir] at hd
    rw [hd] at hany
    exact Bool.noConfusion hany
  simp [load_item, hcontent, List.filter_append, hfilter, content_item_from_db]

/-- Witness for C4 at the empty state. -/
theorem C4_add_movie_then_load_witness :
    load_item (add_content_item emptyDB "/p" "T" "movie" none) "/p" =
      Except.ok (ContentItem.movie "/p" "T" "movie") :=
  (C4_add_movie_then_load emptyDB "/p" "T" none rfl).1

/-- Claim C6: updating the status or the title of an absent path changes
nothing and raises nothing, for every state. -/
theorem C6_update_absent_noop :
    ∀ (st : DBState) (p s t : String), hasDir st p = false →
      update_content_status st p s = st ∧ update_content_title st p t = st := by
  intro st p s t hd
  have hall : ∀ r ∈ st.content, r.directory ≠ p := by
    intro r hr hrp
    have hany : st.content.any (fun r => decide (r.directory = p)) = true :=
      List.any_eq_true.mpr ⟨r, hr, by simpa using hrp⟩
    simp only [hasDir] at hd
    rw [hd] at hany
    exact Bool.noConfusion hany
  constructor
  · unfold update_content_status
    rw [map_update_id st.content p (fun r => { r with status := s }) hall]
  · unfold update_content_title
    rw [map_update_id st.content p (fun r => { r with title := t }) hall]

/-- Witness for C6: the update of spec section 8 on the empty state. -/
theorem C6_update_absent_noop_witness :
    update_content_status emptyDB "/a" "synced" = emptyDB :=
  (C6_update_absent_noop emptyDB "/a" "synced" "T" rfl).1

/-- Claim C9: the optional filters are truthiness tests, so passing the
empty string behaves exactly like passing no filter at all, both for
path_exists and for get_content_items. -/
theorem C9_empty_string_filters :
    (∀ (st : DBState) (p : String), path_exists st p (some "") = path_exists st p none) ∧
    (∀ (st : DBState) (s : String),
      get_content_items st s (some "") = get_content_items st s none) :=
  ⟨fun _ _ => rfl, fun _ _ => rfl⟩

/-- Claim C10: a mediatype other than movie and tvshow matches neither
branch of add_content_item, so nothing is inserted, no error is raised
and the state is returned unchanged. -/
theorem C10_add_unknown_kind_noop :
    ∀ (st : DBState) (p t m : String) (sh : Option String),
      m ≠ "movie" → m ≠ "tvshow" → add_content_item st p t m sh = st := by
  intro st p t m sh h1 h2
  simp [add_content_item, h1, h2]

/-- Witness for C10 at the kind music. -/
theorem C10_add_unknown_kind_noop_witness :
    add_content_item emptyDB "/p" "T" "music" none = emptyDB :=
  C10_add_unknown_kind_noop emptyDB "/p" "T" "music" none (by decide) (by decide)

/-- Claim C5: the store keeps the Blocked table free of duplicate
(value, kind) pairs.  Both operations that touch the table preserve the
no-duplicates invariant; from a duplicate-free state, adding the same
pair twice leaves exactly one matching row, after which check_blocked is
true for that pair and still false for a different kind that was not
blocked before. -/
theorem C5_blocked_no_duplicates :
    (∀ (st : DBState) (v k : String),
        noDupBlocked st.blocked → noDupBlocked (add_blocked_item st v k).blocked) ∧
    (∀ (st : DBState) (v k : String),
        noDupBlocked st.blocked → noDupBlocked (remove_blocked st v k).blocked) ∧
    (∀ (st : DBState) (v k : String), noDupBlocked st.blocked →
        countBlocked (add_blocked_item (add_blocked_item st v k) v k).blocked v k = 1) ∧
    (∀ (st : DBState) (v k : String),
        check_blocked (add_blocked_item (add_blocked_item st v k) v k) v k = true) ∧
    (∀ (st : DBState) (v k k2 : String), k2 ≠ k → check_blocked st v k2 = false →
        check_blocked (add_blocked_item (add_blocked_item st v k) v k) v k2 = false) := by
  have Hadd : ∀ (st : DBState) (v k : String), check_blocked st v k = false →
      (add_blocked_item st v k).blocked = st.blocked ++ [⟨v, k⟩] := by
    intro st v k hc
    simp [add_blocked_item, hc]
  have Hskip : ∀ (st : DBState) (v k : String), check_blocked st v k = true →
      add_blocked_item st v k = st := by
    intro st v k hc
    simp [add_blocked_item, hc]
  have Hcheck1 : ∀ (st : DBState) (v k : String),
      check_blocked (add_blocked_item st v k) v k = true := by
    intro st v k
    cases hc : check_blocked st v k
    · refine (check_blocked_true_iff _ v k).mpr ⟨⟨v, k⟩, ?_, rfl, rfl⟩
      rw [Hadd st v k hc]
      exact List.mem_append_right _ (List.mem_cons_self _ _)
    · rw [Hskip st v k hc]
      exact hc
  have Hdouble : ∀ (st : DBState) (v k : String),
      add_blocked_item (add_blocked_item st v k) v k = add_blocked_item st v k := by
    intro st v k
    exact Hskip _ v k (Hcheck1 st v k)
  refine ⟨?_, ?_, ?_, ?_, ?_⟩
  · intro st v k hnd v2 k2
    cases hc : check_blocked st v k
    · rw [Hadd st v k hc, countBlocked_append]
      by_cases hvk : v = v2 ∧ k = k2
      · obtain ⟨rfl, rfl⟩ := hvk
        rw [countBlocked_eq_zero st v k hc]
        simp
      · have h0 :
            (if (⟨v, k⟩ : BlockedRow).value = v2 ∧ (⟨v, k⟩ : BlockedRow).type = k2
              then 1 else 0) = 0 := by
          simp only [if_neg hvk]
        rw [h0]
        simpa using hnd v2 k2
    · rw [Hskip st v k hc]
      exact hnd v2 k2
  · intro st v k hnd v2 k2
    have hsub :
        ((remove_blocked st v k).blocked.filter
            (fun r => decide (r.value = v2 ∧ r.type = k2))).length ≤
          (st.blocked.filter (fun r => decide (r.value = v2 ∧ r.type = k2))).length := by
      refine List.Sublist.length_le ?_
      exact List.Sublist.filter _ (List.filter_sublist _)
    exact le_trans hsub (hnd v2 k2)
  · intro st v k hnd
    rw [Hdouble st v k]
    cases hc : check_blocked st v k
    · rw [Hadd st v k hc, countBlocked_append, countBlocked_eq_zero st v k hc]
      simp
    · rw [Hskip st v k hc]
      exact Nat.le_antisymm (hnd v k) (countBlocked_pos st v k hc)
  · intro st v k
    rw [Hdouble st v k]
    exact Hcheck1 st v k
  · intro st v k k2 hne hcf
    rw [Hdouble st v k]
    cases hc : check_blocked st v k
    · have hne2 : k ≠ k2 := fun hh => hne hh.symm
      rw [Bool.eq_false_iff]
      intro htrue
      rcases (check_blocked_true_iff _ v k2).mp htrue with ⟨r, hr, hv, hk⟩
      rw [Hadd st v k hc] at hr
      rcases List.mem_append.mp hr with hr1 | hr2
      · have hct : check_blocked st v k2 = true :=
          (check_blocked_true_iff st v k2).mpr ⟨r, hr1, hv, hk⟩
        rw [hcf] at hct
        exact Bool.noConfusion hct
      · have hrk : r = ⟨v, k⟩ := List.mem_singleton.mp hr2
        subst hrk
        exact hne2 hk
    · rw [Hskip st v k hc]
      exact hcf

/-- Witness for C5: blocking (Trailer, movie) twice starting from the
empty store leaves one row and does not block (Trailer, tvshow). -/
theorem C5_blocked_no_duplicates_witness :
    countBlocked
        (add_blocked_item (add_blocked_item emptyDB "Trailer" "movie")
          "Trailer" "movie").blocked "Trailer" "movie" = 1 ∧
      check_blocked
        (add_blocked_item (add_blocked_item emptyDB "Trailer" "movie")
          "Trailer" "movie") "Trailer" "tvshow" = false :=
  ⟨C5_blocked_no_duplicates.2.2.1 emptyDB "Trailer" "movie"
      (fun v k => by simp [countBlocked, emptyDB]),
    C5_blocked_no_duplicates.2.2.2.2 emptyDB "Trailer" "movie" "tvshow"
      (by decide) rfl⟩

/-- Counterexample to claim C7 as stated: the query behind get_all_shows
has no Mediatype constraint, so at a state holding a movie row whose
show title is X, get_all_shows returns X while the claimed behaviour
(tvshow entries only) returns nothing. -/
theorem C7_counterexample :
    get_all_shows c7State "staged" = ["X"] ∧
      get_all_shows_claim c7State "staged" = [] ∧
      get_all_shows c7State "staged" ≠ get_all_shows_claim c7State "staged" :=
  ⟨rfl, rfl, by decide⟩

/-- Claim C7 amended: get_all_shows returns exactly the distinct
non-null show titles of all entries with the given status, with no
media-kind filter; movie entries are excluded only insofar as their
show title is null. -/
theorem C7_get_all_shows_amended :
    ∀ (st : DBState) (status : String),
      (get_all_shows st status).Nodup ∧
      (∀ x : String, x ∈ get_all_shows st status ↔
        ∃ r ∈ st.content, r.status = status ∧ r.show_title = some x) := by
  intro st status
  constructor
  · exact nodup_filterMap_id _ (nodup_sortBy _ _ (nodup_dedupFirst _))
  · intro x
    unfold get_all_shows
    rw [List.mem_filterMap]
    constructor
    · rintro ⟨o, ho, hox⟩
      simp only [id] at hox
      subst hox
      have h1 := (mem_sortBy _ _ _).mp ho
      have h2 := (mem_dedupFirst _ _).mp h1
      rcases List.mem_map.mp h2 with ⟨r, hr, hshow⟩
      rcases List.mem_filter.mp hr with ⟨hrc, hst⟩
      rw [decide_eq_true_eq] at hst
      exact ⟨r, hrc, hst, hshow⟩
    · rintro ⟨r, hrc, hst, hshow⟩
      refine ⟨some x, ?_, rfl⟩
      rw [mem_sortBy, mem_dedupFirst]
      exact List.mem_map.mpr ⟨r, List.mem_filter.mpr ⟨hrc, by simpa using hst⟩, hshow⟩

/-- Counterexample to the final part of claim C8: load_item raises on a
state whose rows all carry recognized kinds, merely because no row
matches the path, so reads do not raise only when a returned row has an
unrecognized kind. -/
theorem C8_counterexample :
    load_item c2State "/gone" = Except.error DBErr.typeError ∧
      c2State.content.filter (fun r => decide (r.directory = "/gone")) = [] ∧
      (∀ r ∈ c2State.content, r.mediatype = "movie") :=
  ⟨rfl, rfl, by decide⟩

/-- Claim C8 amended: a movie row maps to a movie entry, a tvshow row to
an episode entry, any other kind raises the ValueError of
content_item_from_db; get_content_items and get_show_episodes raise
exactly when some selected row carries an unrecognized kind, and
load_item additionally raises a TypeError when no row matches the
path. -/
theorem C8_row_mapping_amended :
    (∀ r : ContentRow, r.mediatype = "movie" →
        content_item_from_db (some r) =
          Except.ok (ContentItem.movie r.directory r.title "movie")) ∧
    (∀ r : ContentRow, r.mediatype = "tvshow" →
        content_item_from_db (some r) =
          Except.ok (ContentItem.episode r.directory r.title "tvshow" r.show_title)) ∧
    (∀ r : ContentRow, r.mediatype ≠ "movie" → r.mediatype ≠ "tvshow" →
        content_item_from_db (some r) = Except.error DBErr.valueError) ∧
    (∀ (st : DBState) (s : String) (m : Option String),
        (∃ e, get_content_items st s m = Except.error e) ↔
          ∃ r ∈ selectContent st s m,
            r.mediatype ≠ "movie" ∧ r.mediatype ≠ "tvshow") ∧
    (∀ (st : DBState) (s t : String),
        (∃ e, get_show_episodes st s t = Except.error e) ↔
          ∃ r ∈ st.content, (r.status = s ∧ r.show_title = some t) ∧
            r.mediatype ≠ "movie" ∧ r.mediatype ≠ "tvshow") ∧
    (∀ (st : DBState) (p : String),
        st.content.filter (fun r => decide (r.directory = p)) = [] →
          load_item st p = Except.error DBErr.typeError) := by
  refine ⟨content_item_from_db_ok_movie, content_item_from_db_ok_tvshow,
    content_item_from_db_bad, ?_, ?_, ?_⟩
  · intro st s m
    unfold get_content_items
    rw [mapRows_error_iff]
    constructor
    · rintro ⟨r, hr, hbad⟩
      exact ⟨r, (mem_sortBy _ _ _).mp hr, hbad⟩
    · rintro ⟨r, hr, hbad⟩
      exact ⟨r, (mem_sortBy _ _ _).mpr hr, hbad⟩
  · intro st s t
    unfold get_show_episodes
    rw [mapRows_error_iff]
    constructor
    · rintro ⟨r, hr, hbad⟩
      have hr2 := (mem_sortBy _ _ _).mp hr
      rcases List.mem_filter.mp hr2 with ⟨hrc, hpred⟩
      rw [decide_eq_true_eq] at hpred
      exact ⟨r, hrc, hpred, hbad⟩
    · rintro ⟨r, hrc, hpred, hbad⟩
      refine ⟨r, (mem_sortBy _ _ _).mpr ?_, hbad⟩
      exact List.mem_filter.mpr ⟨hrc, by simpa using hpred⟩
  · intro st p h
    simp [load_item, h, content_item_from_db]

/-- Witness for C8: an unrecognized kind maps to the ValueError, and
load_item raises the TypeError on the empty store. -/
theorem C8_row_mapping_amended_witness :
    content_item_from_db (some ⟨"/x", "T", "music", "staged", none⟩) =
        Except.error DBErr.valueError ∧
      load_item emptyDB "/nope" = Except.error DBErr.typeError :=
  ⟨C8_row_mapping_amended.2.2.1 ⟨"/x", "T", "music", "staged", none⟩
      (by decide) (by decide),
    C8_row_mapping_amended.2.2.2.2.2 emptyDB "/nope" rfl⟩

/-- Counterexample to claim C1 as stated: SQLite LIKE is
case-insensitive on ASCII, so the lowercase prefix is stripped too.  The
code key of "the Alpha" is "Alpha" while the claimed key is the whole
string, and the resulting listing order differs from the claimed one. -/
theorem C1_counterexample :
    sortKey "the Alpha" ≠ claimSortKey "the Alpha" ∧
      getTitles (get_content_items c1LowerState "staged" none) =
        some ["the Alpha", "Beta"] ∧
      getTitles (get_content_items_claim c1LowerState "staged" none) =
        some ["Beta", "the Alpha"] :=
  ⟨by decide, rfl, rfl⟩

/-- Claim C1 amended: the sort key of a listing strips the first four
characters whenever the string starts with the article in any ASCII
casing (first three characters lower-casing to t, h, e and a fourth
character that is a space) and is the whole string otherwise; original
casing is preserved in the returned entries, and the example titles
The Office, Archer, The Wire come back as Archer, The Office, The
Wire. -/
theorem C1_sort_key_amended :
    (∀ (t h e : Char) (r : List Char),
        sortKey (String.mk (t :: h :: e :: ' ' :: r)) =
          (if asciiLower t = 't' ∧ asciiLower h = 'h' ∧ asciiLower e = 'e'
            then String.mk r else String.mk (t :: h :: e :: ' ' :: r))) ∧
    (∀ (t h e sp : Char) (r : List Char), sp ≠ ' ' →
        sortKey (String.mk (t :: h :: e :: sp :: r)) =
          String.mk (t :: h :: e :: sp :: r)) ∧
    (∀ s : String, s.data.length < 4 → sortKey s = s) ∧
    getTitles (get_content_items c1State "staged" none) =
      some ["Archer", "The Office", "The Wire"] ∧
    getTitles (get_content_items c1LowerState "staged" none) =
      some ["the Alpha", "Beta"] := by
  refine ⟨?_, ?_, ?_, rfl, rfl⟩
  · intro t h e r
    by_cases hp : asciiLower t = 't' ∧ asciiLower h = 'h' ∧ asciiLower e = 'e'
    · obtain ⟨h1, h2, h3⟩ := hp
      simp [sortKey, likeThe, h1, h2, h3]
    · have hb : likeThe (String.mk (t :: h :: e :: ' ' :: r)) = false := by
        rw [Bool.eq_false_iff]
        intro htrue
        simp only [likeThe, Bool.and_eq_true, beq_iff_eq] at htrue
        rcases htrue with ⟨⟨⟨ha, hbb⟩, hcc⟩, _⟩
        exact hp ⟨ha, hbb, hcc⟩
      simp [sortKey, hb, hp]
  · intro t h e sp r hsp
    have hb : likeThe (String.mk (t :: h :: e :: sp :: r)) = false := by
      rw [Bool.eq_false_iff]
      intro htrue
      simp only [likeThe, Bool.and_eq_true, beq_iff_eq] at htrue
      exact hsp htrue.2
    simp [sortKey, hb]
  · intro s hlen
    obtain ⟨l⟩ := s
    rcases l with _ | ⟨a, _ | ⟨b, _ | ⟨c, _ | ⟨d, rest⟩⟩⟩⟩
    · rfl
    · rfl
    · rfl
    · rfl
    · simp [List.length] at hlen
      omega

/-- Witness for C1: the amended key rule applied at concrete strings,
one with a non-space fourth character and one shorter than four
characters. -/
theorem C1_sort_key_amended_witness :
    sortKey (String.mk ['a', 'b', 'c', 'x', 'd']) =
        String.mk ['a', 'b', 'c', 'x', 'd'] ∧
      sortKey "Th" = "Th" :=
  ⟨C1_sort_key_amended.2.1 'a' 'b' 'c' 'x' ['d'] (by decide),
    C1_sort_key_amended.2.2.1 "Th" (by decide)⟩
